import Mathlib

/-!
Shallow embedding of the image-editor front end
(`src/App.tsx`, `src/utils/fileUtils.ts`, and the service module
`editImageWithPrompt`).  Pixel dimensions are modelled as integers,
sub-pixel quantities (aspect ratios, display-space coordinates, canvas
sizes before rounding) as rationals, and JavaScript `Math.round` as
`jround` below.
-/

/-- JavaScript `Math.round`: rounds half toward positive infinity,
`Math.round x = ⌊x + 1/2⌋`. -/
def jround (q : ℚ) : ℤ := ⌊q + 1/2⌋

theorem jround_intCast (n : ℤ) : jround (n : ℚ) = n := by
  unfold jround
  rw [add_comm, Int.floor_add_int]
  norm_num

theorem jround_le (q : ℚ) : (jround q : ℚ) ≤ q + 1/2 := Int.floor_le _

theorem lt_jround (q : ℚ) : q - 1/2 < (jround q : ℚ) := by
  have h := Int.lt_floor_add_one (q + 1/2)
  unfold jround
  linarith

theorem jround_nonneg {q : ℚ} (h : 0 ≤ q) : 0 ≤ jround q := by
  unfold jround
  have : (0 : ℤ) ≤ ⌊q + 1/2⌋ := by
    rw [Int.le_floor]
    push_cast
    linarith
  exact this

theorem jround_mono {a b : ℚ} (h : a ≤ b) : jround a ≤ jround b := by
  unfold jround
  exact Int.floor_le_floor (by linarith)

theorem jround_eq_of {n : ℤ} {q : ℚ} (h1 : (n : ℚ) ≤ q + 1/2)
    (h2 : q + 1/2 < (n : ℚ) + 1) : jround q = n := by
  unfold jround
  rw [Int.floor_eq_iff]
  constructor <;> [exact h1; exact h2]

theorem le_jround {n : ℤ} {q : ℚ} (h : (n : ℚ) ≤ q + 1/2) : n ≤ jround q := by
  unfold jround
  rw [Int.le_floor]
  exact h

theorem jround_le_of {n : ℤ} {q : ℚ} (h : q + 1/2 < (n : ℚ) + 1) : jround q ≤ n := by
  unfold jround
  have : ⌊q + 1/2⌋ < n + 1 := by
    rw [Int.floor_lt]
    push_cast
    linarith
  omega


/-- Key centering inequality: rounding the half gap never lets the source
overflow the rounded canvas. -/
theorem jround_center_le {c : ℚ} {n : ℤ} (h : (n : ℚ) ≤ c) :
    jround ((c - n) / 2) + n ≤ jround c := by
  unfold jround
  rw [← Int.floor_add_int]
  apply Int.floor_le_floor
  linarith

/-- Result of `padImage` in `src/utils/fileUtils.ts`: final canvas
dimensions and the offset at which the source image is drawn. -/
structure PadResult where
  width : ℤ
  height : ℤ
  drawX : ℤ
  drawY : ℤ
deriving DecidableEq, Repr

/-- `padImage` from `src/utils/fileUtils.ts` (lines 116-168): computes the
letterbox canvas for a `w × h` source image and a target aspect ratio,
then rounds canvas size and draw offsets with `Math.round`. -/
def padImage (w h : ℤ) (targetAspectRatio : ℚ) : PadResult :=
  let currentAspectRatio : ℚ := (w : ℚ) / (h : ℚ)
  if currentAspectRatio > targetAspectRatio then
    -- Image is wider than target, pad top/bottom to make it taller
    let canvasWidth : ℚ := (w : ℚ)
    let canvasHeight : ℚ := (w : ℚ) / targetAspectRatio
    let drawY : ℚ := (canvasHeight - (h : ℚ)) / 2
    { width := jround canvasWidth, height := jround canvasHeight,
      drawX := jround 0, drawY := jround drawY }
  else
    -- Image is taller than target, pad left/right to make it wider
    let canvasHeight : ℚ := (h : ℚ)
    let canvasWidth : ℚ := (h : ℚ) * targetAspectRatio
    let drawX : ℚ := (canvasWidth - (w : ℚ)) / 2
    { width := jround canvasWidth, height := jround canvasHeight,
      drawX := jround drawX, drawY := jround 0 }

/-- The sizing and centering rule that the specification states for
`padImage`: dimension selection per branch of the aspect-ratio
comparison, draw offsets as the rounded half gap, and the canvas fully
containing the source raster. -/
def PadFollowsSizingRule (w h : ℤ) (t : ℚ) : Prop :=
  ((w : ℚ) / (h : ℚ) > t →
    (padImage w h t).width = w ∧
    (padImage w h t).height = jround ((w : ℚ) / t) ∧
    (padImage w h t).drawX = jround (((w : ℚ) - (w : ℚ)) / 2) ∧
    (padImage w h t).drawY = jround (((w : ℚ) / t - (h : ℚ)) / 2)) ∧
  ((w : ℚ) / (h : ℚ) ≤ t →
    (padImage w h t).height = h ∧
    (padImage w h t).width = jround ((h : ℚ) * t) ∧
    (padImage w h t).drawX = jround (((h : ℚ) * t - (w : ℚ)) / 2) ∧
    (padImage w h t).drawY = jround (((h : ℚ) - (h : ℚ)) / 2)) ∧
  (0 ≤ (padImage w h t).drawX ∧ (padImage w h t).drawX + w ≤ (padImage w h t).width ∧
   0 ≤ (padImage w h t).drawY ∧ (padImage w h t).drawY + h ≤ (padImage w h t).height)

theorem jround_zero : jround (0 : ℚ) = 0 := by
  simpa using jround_intCast 0

/-- Claim C2: for every positive source raster and positive target aspect
ratio, `padImage` follows the exact sizing rule of the specification (wider
than target: keep width, height is the rounded quotient; otherwise keep
height, width is the rounded product), draws the source at the rounded
half-gap offset on each axis, and the new canvas fully contains the
source raster. -/
theorem padImage_follows_sizing_rule (w h : ℤ) (t : ℚ)
    (hw : 0 < w) (hh : 0 < h) (ht : 0 < t) : PadFollowsSizingRule w h t := by
  have hh' : (0 : ℚ) < (h : ℚ) := by exact_mod_cast hh
  have hw' : (0 : ℚ) < (w : ℚ) := by exact_mod_cast hw
  unfold PadFollowsSizingRule
  by_cases hc : (w : ℚ) / (h : ℚ) > t
  · have hhw : (h : ℚ) ≤ (w : ℚ) / t := by
      rw [le_div_iff₀ ht]
      have := (lt_div_iff₀ hh').mp hc
      linarith
    have e : padImage w h t =
        ⟨jround (w : ℚ), jround ((w : ℚ) / t), jround 0,
         jround (((w : ℚ) / t - (h : ℚ)) / 2)⟩ := by
      simp only [padImage]
      rw [if_pos hc]
    rw [e]
    refine ⟨fun _ => ⟨jround_intCast w, rfl, by norm_num, rfl⟩,
            fun hle => absurd hc (not_lt.mpr hle), ?_, ?_, ?_, ?_⟩
    · exact le_of_eq jround_zero.symm
    · have h1 := jround_zero
      have h2 := jround_intCast w
      show jround 0 + w ≤ jround (w : ℚ)
      omega
    · exact jround_nonneg (by linarith)
    · exact jround_center_le hhw
  · have hwh : (w : ℚ) ≤ (h : ℚ) * t := by
      have := (div_le_iff₀ hh').mp (not_lt.mp hc)
      linarith
    have e : padImage w h t =
        ⟨jround ((h : ℚ) * t), jround (h : ℚ),
         jround (((h : ℚ) * t - (w : ℚ)) / 2), jround 0⟩ := by
      simp only [padImage]
      rw [if_neg hc]
    rw [e]
    refine ⟨fun hgt => absurd hgt hc,
            fun _ => ⟨jround_intCast h, rfl, rfl, by norm_num⟩, ?_, ?_, ?_, ?_⟩
    · exact jround_nonneg (by linarith)
    · exact jround_center_le hwh
    · exact le_of_eq jround_zero.symm
    · have h1 := jround_zero
      have h2 := jround_intCast h
      show jround 0 + h ≤ jround (h : ℚ)
      omega

theorem padImage_follows_sizing_rule_witness :
    (0 : ℤ) < 5 ∧ (0 : ℤ) < 2 ∧ (0 : ℚ) < 3 ∧ PadFollowsSizingRule 5 2 3 :=
  ⟨by norm_num, by norm_num, by norm_num,
   padImage_follows_sizing_rule 5 2 3 (by norm_num) (by norm_num) (by norm_num)⟩

theorem padImage_dims_of_gt {w h : ℤ} {t : ℚ} (hc : (w : ℚ) / (h : ℚ) > t) :
    (padImage w h t).width = w ∧ (padImage w h t).height = jround ((w : ℚ) / t) := by
  have e : padImage w h t =
      ⟨jround (w : ℚ), jround ((w : ℚ) / t), jround 0,
       jround (((w : ℚ) / t - (h : ℚ)) / 2)⟩ := by
    simp only [padImage]
    rw [if_pos hc]
  rw [e]
  exact ⟨jround_intCast w, rfl⟩

theorem padImage_dims_of_le {w h : ℤ} {t : ℚ} (hc : ¬((w : ℚ) / (h : ℚ) > t)) :
    (padImage w h t).width = jround ((h : ℚ) * t) ∧ (padImage w h t).height = h := by
  have e : padImage w h t =
      ⟨jround ((h : ℚ) * t), jround (h : ℚ),
       jround (((h : ℚ) * t - (w : ℚ)) / 2), jround 0⟩ := by
    simp only [padImage]
    rw [if_neg hc]
  rw [e]
  exact ⟨rfl, jround_intCast h⟩

/-- When the target ratio is at most one, a product that sits within the
rounding slack of the integer `W` rounds back to `W` exactly. -/
theorem jround_mul_close {W H : ℤ} {t : ℚ} (ht1 : t ≤ 1)
    (h1 : (W : ℚ) ≤ (H : ℚ) * t) (h2 : (H : ℚ) * t ≤ (W : ℚ) + t / 2) :
    jround ((H : ℚ) * t) = W := by
  apply jround_eq_of
  · linarith
  · rcases lt_or_le ((H : ℚ) * t) ((W : ℚ) + 1/2) with hlt | hge
    · linarith
    · exfalso
      have htt : t = 1 := le_antisymm ht1 (by linarith)
      rw [htt, mul_one] at hge h2
      have h3 : (2 * H : ℚ) = 2 * W + 1 := by
        linarith
      have h4 : (2 * H : ℤ) = 2 * W + 1 := by exact_mod_cast h3
      omega

/-- When the target ratio is at least one, a quotient that sits within the
rounding slack of the integer `H` rounds back to `H` exactly. -/
theorem jround_div_close {W H : ℤ} {t : ℚ} (ht : 0 < t) (ht1 : 1 ≤ t)
    (h1 : (H : ℚ) * t < (W : ℚ)) (h2 : (W : ℚ) ≤ (H : ℚ) * t + 1/2) :
    jround ((W : ℚ) / t) = H := by
  apply jround_eq_of
  · have hH : (H : ℚ) < (W : ℚ) / t := by
      rw [lt_div_iff₀ ht]
      linarith
    linarith
  · rcases lt_or_le ((W : ℚ)) ((H : ℚ) * t + t / 2) with hlt | hge
    · have : (W : ℚ) / t < (H : ℚ) + 1/2 := by
        rw [div_lt_iff₀ ht]
        nlinarith
      linarith
    · exfalso
      have htt : t = 1 := le_antisymm (by linarith) ht1
      rw [htt, mul_one] at h1 h2 hge
      have h3 : (2 * W : ℚ) = 2 * H + 1 := by
        linarith
      have h4 : (2 * W : ℤ) = 2 * H + 1 := by exact_mod_cast h3
      omega

/-- Any dimension pair produced by `padImage` satisfies one of the two
rounding invariants, depending on which branch produced it. -/
theorem padImage_dims_inv {w h : ℤ} {t : ℚ} :
    (padImage w h t).height = jround (((padImage w h t).width : ℚ) / t) ∨
    (padImage w h t).width = jround (((padImage w h t).height : ℚ) * t) := by
  by_cases hc : (w : ℚ) / (h : ℚ) > t
  · obtain ⟨e1, e2⟩ := padImage_dims_of_gt hc
    left
    rw [e1, e2]
  · obtain ⟨e1, e2⟩ := padImage_dims_of_le hc
    right
    rw [e1, e2]

theorem padImage_dims_pos {w h : ℤ} {t : ℚ} (hw : 0 < w) (hh : 0 < h) (ht : 0 < t) :
    0 < (padImage w h t).width ∧ 0 < (padImage w h t).height := by
  have hh' : (0 : ℚ) < (h : ℚ) := by exact_mod_cast hh
  by_cases hc : (w : ℚ) / (h : ℚ) > t
  · obtain ⟨e1, e2⟩ := padImage_dims_of_gt hc
    refine ⟨by omega, ?_⟩
    rw [e2]
    have hhw : (h : ℚ) ≤ (w : ℚ) / t := by
      rw [le_div_iff₀ ht]
      have := (lt_div_iff₀ hh').mp hc
      linarith
    have := jround_mono hhw
    rw [jround_intCast] at this
    omega
  · obtain ⟨e1, e2⟩ := padImage_dims_of_le hc
    refine ⟨?_, by omega⟩
    rw [e1]
    have hwh : (w : ℚ) ≤ (h : ℚ) * t := by
      have := (div_le_iff₀ hh').mp (not_lt.mp hc)
      linarith
    have := jround_mono hwh
    rw [jround_intCast] at this
    omega

theorem repad_of_eq {W H W2 H2 : ℤ} {t : ℚ}
    (e1 : (padImage W H t).width = W2) (e2 : (padImage W H t).height = H2)
    (f1 : (padImage W2 H2 t).width = W2) (f2 : (padImage W2 H2 t).height = H2) :
    (padImage (padImage W H t).width (padImage W H t).height t).width =
      (padImage W H t).width ∧
    (padImage (padImage W H t).width (padImage W H t).height t).height =
      (padImage W H t).height := by
  rw [e1, e2]
  exact ⟨f1, f2⟩

/-- Any dimension pair satisfying one of the two `padImage` rounding
invariants is sent by a single `padImage` application to a fixed point of
the dimension map. -/
theorem padImage_inv_repad_fixed {W H : ℤ} {t : ℚ} (ht : 0 < t)
    (hW : 0 < W) (hH : 0 < H)
    (hinv : H = jround ((W : ℚ) / t) ∨ W = jround ((H : ℚ) * t)) :
    (padImage (padImage W H t).width (padImage W H t).height t).width =
      (padImage W H t).width ∧
    (padImage (padImage W H t).width (padImage W H t).height t).height =
      (padImage W H t).height := by
  have hH' : (0 : ℚ) < (H : ℚ) := by exact_mod_cast hH
  have hW' : (0 : ℚ) < (W : ℚ) := by exact_mod_cast hW
  rcases hinv with hinv | hinv
  · by_cases c2 : (W : ℚ) / (H : ℚ) > t
    · obtain ⟨e1, e2⟩ := padImage_dims_of_gt c2
      have e2' : (padImage W H t).height = H := by rw [e2, ← hinv]
      exact repad_of_eq e1 e2' e1 e2'
    · have hWle : (W : ℚ) ≤ (H : ℚ) * t := by
        have := (div_le_iff₀ hH').mp (not_lt.mp c2)
        linarith
      obtain ⟨e1, e2⟩ := padImage_dims_of_le c2
      have hHle : (H : ℚ) ≤ (W : ℚ) / t + 1/2 := by
        rw [hinv]
        exact jround_le _
      have hWt : ((W : ℚ) / t) * t = (W : ℚ) := div_mul_cancel₀ _ (ne_of_gt ht)
      have hmul : (H : ℚ) * t ≤ (W : ℚ) + t / 2 := by
        have := mul_le_mul_of_nonneg_right hHle (le_of_lt ht)
        rw [add_mul, hWt] at this
        linarith
      rcases le_or_lt t 1 with ht1 | ht1
      · have hjw : jround ((H : ℚ) * t) = W := jround_mul_close ht1 hWle hmul
        have e1' : (padImage W H t).width = W := by rw [e1, hjw]
        exact repad_of_eq e1' e2 e1' e2
      · set W2 := jround ((H : ℚ) * t) with hW2
        by_cases c3 : (W2 : ℚ) / (H : ℚ) > t
        · have hgt : (H : ℚ) * t < (W2 : ℚ) := by
            have := (lt_div_iff₀ hH').mp c3
            linarith
          have hb : (W2 : ℚ) ≤ (H : ℚ) * t + 1/2 := by
            rw [hW2]
            exact jround_le _
          obtain ⟨f1, f2⟩ := padImage_dims_of_gt c3
          have f2' : (padImage W2 H t).height = H := by
            rw [f2, jround_div_close ht (le_of_lt ht1) hgt hb]
          exact repad_of_eq e1 e2 f1 f2'
        · obtain ⟨f1, f2⟩ := padImage_dims_of_le c3
          exact repad_of_eq e1 e2 f1 f2
  · by_cases c2 : (W : ℚ) / (H : ℚ) > t
    · have hgt : (H : ℚ) * t < (W : ℚ) := by
        have := (lt_div_iff₀ hH').mp c2
        linarith
      obtain ⟨e1, e2⟩ := padImage_dims_of_gt c2
      rcases le_or_lt 1 t with ht1 | ht1
      · have hb : (W : ℚ) ≤ (H : ℚ) * t + 1/2 := by
          rw [hinv]
          exact jround_le _
        have e2' : (padImage W H t).height = H := by
          rw [e2, jround_div_close ht ht1 hgt hb]
        exact repad_of_eq e1 e2' e1 e2'
      · set H2 := jround ((W : ℚ) / t) with hH2
        have hHH2 : H ≤ H2 := by
          have hlt : (H : ℚ) ≤ (W : ℚ) / t := by
            rw [le_div_iff₀ ht]
            linarith
          have := jround_mono hlt
          rwa [jround_intCast] at this
        have hH2' : (0 : ℚ) < (H2 : ℚ) := by exact_mod_cast (by omega : 0 < H2)
        by_cases c3 : (W : ℚ) / (H2 : ℚ) > t
        · obtain ⟨f1, f2⟩ := padImage_dims_of_gt c3
          exact repad_of_eq e1 e2 f1 f2
        · have hWle2 : (W : ℚ) ≤ (H2 : ℚ) * t := by
            have := (div_le_iff₀ hH2').mp (not_lt.mp c3)
            linarith
          have hjl : (H2 : ℚ) ≤ (W : ℚ) / t + 1/2 := by
            rw [hH2]
            exact jround_le _
          have hWt : ((W : ℚ) / t) * t = (W : ℚ) := div_mul_cancel₀ _ (ne_of_gt ht)
          have hmul2 : (H2 : ℚ) * t ≤ (W : ℚ) + t / 2 := by
            have := mul_le_mul_of_nonneg_right hjl (le_of_lt ht)
            rw [add_mul, hWt] at this
            linarith
          have hjw : jround ((H2 : ℚ) * t) = W :=
            jround_mul_close (le_of_lt ht1) hWle2 hmul2
          obtain ⟨f1, f2⟩ := padImage_dims_of_le c3
          have f1' : (padImage W H2 t).width = W := by rw [f1, hjw]
          exact repad_of_eq e1 e2 f1' f2
    · obtain ⟨e1, e2⟩ := padImage_dims_of_le c2
      have e1' : (padImage W H t).width = W := by rw [e1, ← hinv]
      exact repad_of_eq e1' e2 e1' e2

/-- Claim C3 counterexample: padding a 5 × 1 image to target ratio 3 yields
a 5 × 2 canvas, and re-padding that 5 × 2 result to the same target ratio 3
yields a 6 × 2 canvas, so `padImage` is not idempotent on dimensions. -/
theorem padImage_not_dim_idempotent :
    padImage 5 1 3 = ⟨5, 2, 0, 0⟩ ∧
    padImage (padImage 5 1 3).width (padImage 5 1 3).height 3 = ⟨6, 2, 1, 0⟩ ∧
    (padImage (padImage 5 1 3).width (padImage 5 1 3).height 3).width ≠
      (padImage 5 1 3).width := by
  have e1 : padImage 5 1 3 = ⟨5, 2, 0, 0⟩ := by
    unfold padImage
    rw [if_pos (by norm_num)]
    simp only [jround, PadResult.mk.injEq]
    norm_num
  have e2 : padImage 5 2 3 = ⟨6, 2, 1, 0⟩ := by
    unfold padImage
    rw [if_neg (by norm_num)]
    simp only [jround, PadResult.mk.injEq]
    norm_num
  rw [e1]
  exact ⟨rfl, e2, by rw [e2]; decide⟩

/-- Claim C3 (amended): `padImage` is not idempotent on dimensions after a
single application — rounding can change the result of re-padding an
already-padded image to the same target ratio — but the dimensions
stabilise after one re-pad: for every positive source raster and positive
target ratio, padding the twice-padded dimensions a third time returns
exactly the twice-padded dimensions. -/
theorem padImage_dims_stable_after_double (w h : ℤ) (t : ℚ)
    (hw : 0 < w) (hh : 0 < h) (ht : 0 < t) :
    (padImage (padImage (padImage w h t).width (padImage w h t).height t).width
              (padImage (padImage w h t).width (padImage w h t).height t).height
              t).width =
      (padImage (padImage w h t).width (padImage w h t).height t).width ∧
    (padImage (padImage (padImage w h t).width (padImage w h t).height t).width
              (padImage (padImage w h t).width (padImage w h t).height t).height
              t).height =
      (padImage (padImage w h t).width (padImage w h t).height t).height := by
  obtain ⟨hWp, hHp⟩ := padImage_dims_pos hw hh ht (w := w) (h := h) (t := t)
  exact padImage_inv_repad_fixed ht hWp hHp padImage_dims_inv

theorem padImage_dims_stable_after_double_witness :
    (0 : ℤ) < 5 ∧ (0 : ℤ) < 1 ∧ (0 : ℚ) < 3 ∧
    ((padImage (padImage (padImage 5 1 3).width (padImage 5 1 3).height 3).width
               (padImage (padImage 5 1 3).width (padImage 5 1 3).height 3).height
               3).width =
       (padImage (padImage 5 1 3).width (padImage 5 1 3).height 3).width ∧
     (padImage (padImage (padImage 5 1 3).width (padImage 5 1 3).height 3).width
               (padImage (padImage 5 1 3).width (padImage 5 1 3).height 3).height
               3).height =
       (padImage (padImage 5 1 3).width (padImage 5 1 3).height 3).height) :=
  ⟨by norm_num, by norm_num, by norm_num,
   padImage_dims_stable_after_double 5 1 3 (by norm_num) (by norm_num) (by norm_num)⟩

/-- A rectangle with rational coordinates, as used for the on-screen crop
state in `src/App.tsx` and for the pixel crop passed to `cropImage`. -/
structure Rect where
  x : ℚ
  y : ℚ
  width : ℚ
  height : ℚ
deriving DecidableEq, Repr

/-- The integer rectangle computed by `cropImage` in
`src/utils/fileUtils.ts` (lines 51-107): each requested coordinate is
rounded with `Math.round`, and the canvas is allocated with exactly the
rounded `width × height`. -/
structure CropResult where
  x : ℤ
  y : ℤ
  width : ℤ
  height : ℤ
deriving DecidableEq, Repr

/-- `cropImage` from `src/utils/fileUtils.ts`: the measured dimensions of
its output raster are the rounded requested dimensions. -/
def cropImage (pixelCrop : Rect) : CropResult :=
  { x := jround pixelCrop.x, y := jround pixelCrop.y,
    width := jround pixelCrop.width, height := jround pixelCrop.height }

/-- The display-to-native conversion inlined in `handleGenerateClick`
(`src/App.tsx` lines 236-244): the crop rectangle is scaled independently
per axis by naturalWidth/renderedWidth and naturalHeight/renderedHeight,
with no rounding at this stage. -/
def toNativeSpace (crop : Rect)
    (naturalWidth naturalHeight renderedWidth renderedHeight : ℚ) : Rect :=
  let scaleX := naturalWidth / renderedWidth
  let scaleY := naturalHeight / renderedHeight
  { x := crop.x * scaleX, y := crop.y * scaleY,
    width := crop.width * scaleX, height := crop.height * scaleY }

/-- Claim C4 counterexample: with a 500 × 500 native image rendered at
200 × 200, the display rectangle (0, 0, 3, 3) lies fully inside the
rendered bounds and converts to a native rectangle of width 15/2, but the
cropped raster measures 8 pixels wide — the measured size is the rounding
of the requested native size, not exactly the requested size. -/
theorem cropImage_dims_not_exact :
    (toNativeSpace ⟨0, 0, 3, 3⟩ 500 500 200 200).width = 15/2 ∧
    (cropImage (toNativeSpace ⟨0, 0, 3, 3⟩ 500 500 200 200)).width = 8 ∧
    ((cropImage (toNativeSpace ⟨0, 0, 3, 3⟩ 500 500 200 200)).width : ℚ) ≠
      (toNativeSpace ⟨0, 0, 3, 3⟩ 500 500 200 200).width := by
  have e : toNativeSpace ⟨0, 0, 3, 3⟩ 500 500 200 200 = ⟨0, 0, 15/2, 15/2⟩ := by
    simp only [toNativeSpace, Rect.mk.injEq]
    norm_num
  have e2 : cropImage ⟨0, 0, 15/2, 15/2⟩ = ⟨0, 0, 8, 8⟩ := by
    simp only [cropImage, jround, CropResult.mk.injEq]
    norm_num
  rw [e, e2]
  refine ⟨rfl, rfl, ?_⟩
  norm_num

/-- Claim C4 (amended): converting a display rectangle to native space and
cropping yields measured dimensions equal to the half-up rounding
(`Math.round`) of the requested native width and height — not always the
requested values themselves; whenever the requested native dimensions are
whole numbers, the measured dimensions equal them exactly. -/
theorem cropImage_dims_rounded (c : Rect)
    (naturalWidth naturalHeight renderedWidth renderedHeight : ℚ) :
    (cropImage (toNativeSpace c naturalWidth naturalHeight renderedWidth renderedHeight)).width =
      jround (c.width * (naturalWidth / renderedWidth)) ∧
    (cropImage (toNativeSpace c naturalWidth naturalHeight renderedWidth renderedHeight)).height =
      jround (c.height * (naturalHeight / renderedHeight)) ∧
    (∀ W : ℤ, c.width * (naturalWidth / renderedWidth) = (W : ℚ) →
      (cropImage (toNativeSpace c naturalWidth naturalHeight renderedWidth renderedHeight)).width = W) ∧
    (∀ H : ℤ, c.height * (naturalHeight / renderedHeight) = (H : ℚ) →
      (cropImage (toNativeSpace c naturalWidth naturalHeight renderedWidth renderedHeight)).height = H) := by
  refine ⟨rfl, rfl, ?_, ?_⟩
  · intro W hW
    show jround (c.width * (naturalWidth / renderedWidth)) = W
    rw [hW, jround_intCast]
  · intro H hH
    show jround (c.height * (naturalHeight / renderedHeight)) = H
    rw [hH, jround_intCast]

theorem cropImage_dims_rounded_witness :
    (cropImage (toNativeSpace ⟨0, 0, 4, 4⟩ 500 500 200 200)).width =
      jround ((4 : ℚ) * (500 / 200)) ∧
    ((4 : ℚ) * (500 / 200) = ((10 : ℤ) : ℚ)) ∧
    (cropImage (toNativeSpace ⟨0, 0, 4, 4⟩ 500 500 200 200)).width = 10 :=
  ⟨(cropImage_dims_rounded ⟨0, 0, 4, 4⟩ 500 500 200 200).1,
   by norm_num,
   (cropImage_dims_rounded ⟨0, 0, 4, 4⟩ 500 500 200 200).2.2.1 10 (by norm_num)⟩

/-- The interaction snapshot stored in `cropInteractionRef` in
`src/App.tsx` (lines 46-52). -/
structure CropInteraction where
  isDragging : Bool
  isResizing : Bool
  startX : ℚ
  startY : ℚ
  startCrop : Option Rect
deriving DecidableEq, Repr

/-- The boundary clamp at the end of `handleCropMouseMove`
(`src/App.tsx` lines 377-378): x is clamped into
[0, containerWidth - width] and y into [0, containerHeight - height]. -/
def clampCrop (c : Rect) (containerWidth containerHeight : ℚ) : Rect :=
  { c with x := max 0 (min c.x (containerWidth - c.width)),
           y := max 0 (min c.y (containerHeight - c.height)) }

/-- The resize computation of `handleCropMouseMove` (`src/App.tsx` lines
358-368): grow the width by dx, recompute the height from the fixed
ratio, then clamp each far edge to the container, recomputing the other
dimension from the ratio after each clamp. Returns the candidate
(width, height) pair checked against the 20-pixel minimum. -/
def dragResizeSize (startCrop : Rect) (dx : ℚ) (targetRatio : ℚ)
    (containerWidth containerHeight : ℚ) : ℚ × ℚ :=
  let newWidth := startCrop.width + dx
  let newHeight := newWidth / targetRatio
  let p :=
    if startCrop.x + newWidth > containerWidth then
      (containerWidth - startCrop.x, (containerWidth - startCrop.x) / targetRatio)
    else (newWidth, newHeight)
  if startCrop.y + p.2 > containerHeight then
    ((containerHeight - startCrop.y) * targetRatio, containerHeight - startCrop.y)
  else p

/-- `handleCropMouseMove` from `src/App.tsx` (lines 338-381) as an update
of the crop-rectangle state: given the interaction snapshot, the pointer
position, the active target ratio (`none` when the aspect ratio parses to
nothing; JavaScript also treats a zero ratio as falsy) and the container
bounds, it returns the new crop state; on the early-return paths the crop
state is returned unchanged. -/
def handleCropMouseMove (ia : CropInteraction) (clientX clientY : ℚ)
    (targetRatio : Option ℚ) (containerWidth containerHeight : ℚ)
    (crop : Option Rect) : Option Rect :=
  if !ia.isDragging && !ia.isResizing then crop
  else match ia.startCrop with
  | none => crop
  | some startCrop =>
    let dx := clientX - ia.startX
    let dy := clientY - ia.startY
    if ia.isDragging then
      some (clampCrop { startCrop with x := startCrop.x + dx, y := startCrop.y + dy }
              containerWidth containerHeight)
    else if ia.isResizing then
      match targetRatio with
      | some r =>
        if r = 0 then some (clampCrop startCrop containerWidth containerHeight)
        else
          let p := dragResizeSize startCrop dx r containerWidth containerHeight
          if p.1 < 20 ∨ p.2 < 20 then crop
          else some (clampCrop { startCrop with width := p.1, height := p.2 }
                       containerWidth containerHeight)
      | none => some (clampCrop startCrop containerWidth containerHeight)
    else some (clampCrop startCrop containerWidth containerHeight)

/-- The drag-move property stated by the specification: the handler
translates the start rectangle by the pointer delta, clamps x into
[0, width - rect.width] and y into [0, height - rect.height], and the
result stays inside the rendered image area. -/
def DragMoveSpec (startCrop : Rect) (sx sy cx cy cw ch : ℚ)
    (targetRatio : Option ℚ) (crop0 : Option Rect) : Prop :=
  handleCropMouseMove ⟨true, false, sx, sy, some startCrop⟩ cx cy targetRatio cw ch crop0 =
    some { startCrop with
             x := max 0 (min (startCrop.x + (cx - sx)) (cw - startCrop.width)),
             y := max 0 (min (startCrop.y + (cy - sy)) (ch - startCrop.height)) } ∧
  0 ≤ max 0 (min (startCrop.x + (cx - sx)) (cw - startCrop.width)) ∧
  max 0 (min (startCrop.x + (cx - sx)) (cw - startCrop.width)) + startCrop.width ≤ cw ∧
  0 ≤ max 0 (min (startCrop.y + (cy - sy)) (ch - startCrop.height)) ∧
  max 0 (min (startCrop.y + (cy - sy)) (ch - startCrop.height)) + startCrop.height ≤ ch

/-- Claim C5: for every start rectangle that fits in the rendered image
area and every drag delta, the drag-move branch of `handleCropMouseMove`
translates the rectangle by the delta, then clamps x into
[0, bounds.width - rect.width] and y into [0, bounds.height - rect.height],
so the resulting rectangle never leaves the rendered image area. -/
theorem dragMove_clamps (startCrop : Rect) (sx sy cx cy cw ch : ℚ)
    (targetRatio : Option ℚ) (crop0 : Option Rect)
    (hw : startCrop.width ≤ cw) (hh : startCrop.height ≤ ch) :
    DragMoveSpec startCrop sx sy cx cy cw ch targetRatio crop0 := by
  unfold DragMoveSpec
  refine ⟨rfl, le_max_left _ _, ?_, le_max_left _ _, ?_⟩
  · have hx : max 0 (min (startCrop.x + (cx - sx)) (cw - startCrop.width)) ≤
        cw - startCrop.width := max_le (by linarith) (min_le_right _ _)
    linarith
  · have hy : max 0 (min (startCrop.y + (cy - sy)) (ch - startCrop.height)) ≤
        ch - startCrop.height := max_le (by linarith) (min_le_right _ _)
    linarith

theorem dragMove_clamps_witness :
    Rect.width ⟨10, 10, 50, 40⟩ ≤ (200 : ℚ) ∧ Rect.height ⟨10, 10, 50, 40⟩ ≤ (100 : ℚ) ∧
    DragMoveSpec ⟨10, 10, 50, 40⟩ 0 0 1000 (-1000) 200 100 none none :=
  ⟨by norm_num, by norm_num,
   dragMove_clamps ⟨10, 10, 50, 40⟩ 0 0 1000 (-1000) 200 100 none none
     (by norm_num) (by norm_num)⟩

theorem handleCropMouseMove_resize (startCrop : Rect) (sx sy cx cy cw ch r : ℚ)
    (crop0 : Option Rect) (hr : r ≠ 0) :
    handleCropMouseMove ⟨false, true, sx, sy, some startCrop⟩ cx cy (some r) cw ch crop0 =
      if (dragResizeSize startCrop (cx - sx) r cw ch).1 < 20 ∨
         (dragResizeSize startCrop (cx - sx) r cw ch).2 < 20 then crop0
      else some (clampCrop { startCrop with
                               width := (dragResizeSize startCrop (cx - sx) r cw ch).1,
                               height := (dragResizeSize startCrop (cx - sx) r cw ch).2 }
                   cw ch) := by
  show (if r = 0 then some (clampCrop startCrop cw ch)
        else if (dragResizeSize startCrop (cx - sx) r cw ch).1 < 20 ∨
                (dragResizeSize startCrop (cx - sx) r cw ch).2 < 20 then crop0
        else some (clampCrop { startCrop with
                                 width := (dragResizeSize startCrop (cx - sx) r cw ch).1,
                                 height := (dragResizeSize startCrop (cx - sx) r cw ch).2 }
                     cw ch)) = _
  rw [if_neg hr]

theorem dragResizeSize_le (startCrop : Rect) (dx r cw ch : ℚ) (hr : 0 < r) :
    startCrop.x + (dragResizeSize startCrop dx r cw ch).1 ≤ cw ∧
    startCrop.y + (dragResizeSize startCrop dx r cw ch).2 ≤ ch := by
  simp only [dragResizeSize]
  by_cases h1 : startCrop.x + (startCrop.width + dx) > cw
  · rw [if_pos h1]
    by_cases h2 : startCrop.y + (cw - startCrop.x) / r > ch
    · rw [if_pos h2]
      have hm := (lt_div_iff₀ hr).mp
        (by linarith : ch - startCrop.y < (cw - startCrop.x) / r)
      constructor
      · show startCrop.x + (ch - startCrop.y) * r ≤ cw
        linarith
      · show startCrop.y + (ch - startCrop.y) ≤ ch
        linarith
    · rw [if_neg h2]
      constructor
      · show startCrop.x + (cw - startCrop.x) ≤ cw
        linarith
      · show startCrop.y + (cw - startCrop.x) / r ≤ ch
        linarith [not_lt.mp h2]
  · rw [if_neg h1]
    by_cases h2 : startCrop.y + (startCrop.width + dx) / r > ch
    · rw [if_pos h2]
      have hm := (lt_div_iff₀ hr).mp
        (by linarith : ch - startCrop.y < (startCrop.width + dx) / r)
      constructor
      · show startCrop.x + (ch - startCrop.y) * r ≤ cw
        linarith [not_lt.mp h1]
      · show startCrop.y + (ch - startCrop.y) ≤ ch
        linarith
    · rw [if_neg h2]
      constructor
      · show startCrop.x + (startCrop.width + dx) ≤ cw
        linarith [not_lt.mp h1]
      · show startCrop.y + (startCrop.width + dx) / r ≤ ch
        linarith [not_lt.mp h2]

/-- The drag-resize property stated by the specification: when the
clamped candidate size falls below the 20-pixel minimum the handler is a
no-op (the crop state is returned unchanged); otherwise the returned
rectangle has width and height at least 20 and stays inside the
container bounds. -/
def DragResizeSpec (startCrop : Rect) (sx sy cx cy cw ch r : ℚ)
    (crop0 : Option Rect) : Prop :=
  ((dragResizeSize startCrop (cx - sx) r cw ch).1 < 20 ∨
      (dragResizeSize startCrop (cx - sx) r cw ch).2 < 20 →
    handleCropMouseMove ⟨false, true, sx, sy, some startCrop⟩ cx cy (some r) cw ch crop0 =
      crop0) ∧
  (¬((dragResizeSize startCrop (cx - sx) r cw ch).1 < 20 ∨
      (dragResizeSize startCrop (cx - sx) r cw ch).2 < 20) →
    ∃ c : Rect,
      handleCropMouseMove ⟨false, true, sx, sy, some startCrop⟩ cx cy (some r) cw ch crop0 =
        some c ∧
      20 ≤ c.width ∧ 20 ≤ c.height ∧
      0 ≤ c.x ∧ 0 ≤ c.y ∧ c.x + c.width ≤ cw ∧ c.y + c.height ≤ ch)

/-- Claim C6: for any start rectangle with nonnegative origin and any
resize delta, the resize branch of `handleCropMouseMove` never returns a
rectangle with width or height below the 20-display-pixel minimum, never
returns one whose far edge exceeds the container bounds, and is a no-op
leaving the crop state unchanged exactly when the clamped resized size
would fall below the minimum. -/
theorem dragResize_bounds (startCrop : Rect) (sx sy cx cy cw ch r : ℚ)
    (crop0 : Option Rect) (hr : 0 < r)
    (hx : 0 ≤ startCrop.x) (hy : 0 ≤ startCrop.y) :
    DragResizeSpec startCrop sx sy cx cy cw ch r crop0 := by
  have hcomp := handleCropMouseMove_resize startCrop sx sy cx cy cw ch r crop0 (ne_of_gt hr)
  obtain ⟨hpx, hpy⟩ := dragResizeSize_le startCrop (cx - sx) r cw ch hr
  unfold DragResizeSpec
  constructor
  · intro hmin
    rw [hcomp, if_pos hmin]
  · intro hmin
    rcases not_or.mp hmin with ⟨hw20, hh20⟩
    have h20w : (20 : ℚ) ≤ (dragResizeSize startCrop (cx - sx) r cw ch).1 := not_lt.mp hw20
    have h20h : (20 : ℚ) ≤ (dragResizeSize startCrop (cx - sx) r cw ch).2 := not_lt.mp hh20
    rw [hcomp, if_neg hmin]
    refine ⟨_, rfl, h20w, h20h, le_max_left _ _, le_max_left _ _, ?_, ?_⟩
    · show max 0 (min startCrop.x (cw - (dragResizeSize startCrop (cx - sx) r cw ch).1)) +
          (dragResizeSize startCrop (cx - sx) r cw ch).1 ≤ cw
      have hmax : max 0 (min startCrop.x (cw - (dragResizeSize startCrop (cx - sx) r cw ch).1)) ≤
          cw - (dragResizeSize startCrop (cx - sx) r cw ch).1 :=
        max_le (by linarith) (min_le_right _ _)
      linarith
    · show max 0 (min startCrop.y (ch - (dragResizeSize startCrop (cx - sx) r cw ch).2)) +
          (dragResizeSize startCrop (cx - sx) r cw ch).2 ≤ ch
      have hmax : max 0 (min startCrop.y (ch - (dragResizeSize startCrop (cx - sx) r cw ch).2)) ≤
          ch - (dragResizeSize startCrop (cx - sx) r cw ch).2 :=
        max_le (by linarith) (min_le_right _ _)
      linarith

theorem dragResize_bounds_witness :
    (0 : ℚ) < 1 ∧ (0 : ℚ) ≤ Rect.x ⟨0, 0, 50, 50⟩ ∧ (0 : ℚ) ≤ Rect.y ⟨0, 0, 50, 50⟩ ∧
    DragResizeSpec ⟨0, 0, 50, 50⟩ 0 0 10 0 200 100 1 none :=
  ⟨by norm_num, by norm_num, by norm_num,
   dragResize_bounds ⟨0, 0, 50, 50⟩ 0 0 10 0 200 100 1 none
     (by norm_num) (by norm_num) (by norm_num)⟩

/-- One character of JavaScript `String.prototype.toLowerCase`:
Unicode-aware on the ranges occurring in this program's prompts and
keyword list — ASCII A-Z and the Latin-1 uppercase letters À-Ö and Ø-Þ
(U+00C0-U+00D6 and U+00D8-U+00DE) lower by adding 32, covering every
accented Portuguese letter such as Í, Ç and Ã. -/
def jsCharToLower (c : Char) : Char :=
  if ('A' ≤ c ∧ c ≤ 'Z') ∨
     (0xC0 ≤ c.toNat ∧ c.toNat ≤ 0xD6) ∨ (0xD8 ≤ c.toNat ∧ c.toNat ≤ 0xDE) then
    Char.ofNat (c.toNat + 32)
  else c

/-- JavaScript `String.prototype.toLowerCase`, applied character-wise. -/
def jsToLowerCase (s : String) : String := ⟨s.toList.map jsCharToLower⟩

/-- JavaScript `String.prototype.includes`: `sub` occurs contiguously
somewhere in `s`. -/
def jsIncludes (s sub : String) : Bool :=
  (List.range (s.toList.length + 1)).any
    (fun i => sub.toList.isPrefixOf (s.toList.drop i))

theorem jsIncludes_iff (s sub : String) :
    jsIncludes s sub = true ↔
      ∃ pre post : List Char, s.toList = pre ++ sub.toList ++ post := by
  unfold jsIncludes
  rw [List.any_eq_true]
  constructor
  · rintro ⟨i, _, hp⟩
    rw [List.isPrefixOf_iff_prefix] at hp
    obtain ⟨t, ht⟩ := hp
    refine ⟨s.toList.take i, t, ?_⟩
    rw [List.append_assoc, ht, List.take_append_drop]
  · rintro ⟨pre, post, h⟩
    refine ⟨pre.length, ?_, ?_⟩
    · rw [List.mem_range, h]
      simp only [List.length_append]
      omega
    · rw [List.isPrefixOf_iff_prefix, h, List.append_assoc, List.drop_left]
      exact List.prefix_append _ _

/-- The quality keyword list of `editImageWithPrompt`
(`src/unnamed/part_000` lines 55-59). -/
def qualityKeywords : List String :=
  ["melhore a qualidade", "aumente a qualidade", "alta resolução", "mais nítido",
   "mais detalhes", "qualidade 4k", "ultra realista", "fotorrealista",
   "hd", "uhd", "deixe mais real", "melhorar a imagem"]

/-- The keyword test of `editImageWithPrompt` (line 61): some keyword is a
substring of the lower-cased user prompt. -/
def hasQualityKeyword (prompt : String) : Bool :=
  qualityKeywords.any (fun keyword => jsIncludes (jsToLowerCase prompt) keyword)

/-- The quality instruction selected from the quality level
(`src/unnamed/part_000` lines 44-51). -/
def qualityInstruction (quality : String) : String :=
  if quality = "high" then
    "Gere a imagem com a mais alta fidelidade possível, preservando detalhes nítidos e evitando artefatos visuais ou de compressão."
  else if quality = "4k" then
    "Gere a imagem com detalhes fotorrealistas e a mais alta resolução possível. Foque em texturas complexas, iluminação realista e renderização nítida, como se fosse para uma tela 4K."
  else ""

/-- The extra quality instruction triggered by a keyword in the user
prompt (`src/unnamed/part_000` lines 61-63). -/
def qualityInstructionFromPrompt (prompt : String) : String :=
  if hasQualityKeyword prompt then
    "O usuário solicitou um aumento explícito na qualidade. Priorize a geração da imagem com o máximo de detalhes, nitidez, clareza e fotorrealismo possível."
  else ""

/-- The dimension rule section (`src/unnamed/part_000` lines 70-78),
with outpainting-specific phrasing when the aspect ratio differs from
original. -/
def dimensionRule (isOutpaintingTask : Bool) (w h : ℤ) : String :=
  if isOutpaintingTask then
    "**REGRA INQUEBRÁVEL:** A imagem final DEVE ter EXATAMENTE as mesmas dimensões da PRIMEIRA imagem fornecida (" ++
      toString w ++ "x" ++ toString h ++
      " pixels). A primeira imagem contém áreas transparentes. Sua tarefa é preencher essas áreas transparentes de forma criativa e realista, criando uma continuação natural da imagem existente. O resultado final NÃO PODE ter nenhuma área transparente."
  else
    "**REGRA INQUEBRÁVEL:** A imagem final DEVE ter EXATAMENTE as mesmas dimensões e proporção da PRIMEIRA imagem fornecida (" ++
      toString w ++ "x" ++ toString h ++
      " pixels). É PROIBIDO cortar, redimensionar ou alterar a proporção original."

/-- The edit-task section (`src/unnamed/part_000` lines 81-87). -/
def editTask (isOutpaintingTask : Bool) (prompt : String) : String :=
  if isOutpaintingTask then
    "**TAREFA DE EDIÇÃO:** Dentro da área já visível (não-transparente) da primeira imagem, aplique a seguinte edição: \"" ++
      prompt ++
      "\". Se o comando for genérico (ex: \"melhore a imagem\"), aplique-o em toda a cena final."
  else
    "**TAREFA DE EDIÇÃO:** Edite a PRIMEIRA imagem com base no seguinte comando: \"" ++
      prompt ++ "\"."

def singleQuote : String := String.singleton (Char.ofNat 39)

/-- The reference-image caveat section (`src/unnamed/part_000` line 91). -/
def referenceRule : String :=
  "**AVISO:** A SEGUNDA imagem é apenas para referência de estilo ou objeto. IGNORE TOTALMENTE as suas dimensões e proporção. A única regra de dimensões válida é a " ++
    singleQuote ++ "REGRA INQUEBRÁVEL" ++ singleQuote ++ " acima."

/-- The ordered prompt sections pushed by `editImageWithPrompt`
(`src/unnamed/part_000` lines 66-99): dimension rule, edit task, the
reference caveat when a reference image is attached, and the quality
section when its text is nonempty. -/
def promptLines (prompt aspectRatio quality : String) (hasAttachedImage : Bool)
    (w h : ℤ) : List String :=
  let isOutpaintingTask := aspectRatio != "original"
  let lines1 := [dimensionRule isOutpaintingTask w h, editTask isOutpaintingTask prompt]
  let lines2 := if hasAttachedImage then lines1 ++ [referenceRule] else lines1
  let qualityText := String.intercalate " "
    (([qualityInstruction quality, qualityInstructionFromPrompt prompt]).filter
      (fun s => s != ""))
  if qualityText != "" then lines2 ++ ["**QUALIDADE:** " ++ qualityText] else lines2

/-- The compiled instruction string (`src/unnamed/part_000` line 101):
sections joined with blank-line separation. -/
def enhancedPrompt (prompt aspectRatio quality : String) (hasAttachedImage : Bool)
    (w h : ℤ) : String :=
  String.intercalate "\n\n" (promptLines prompt aspectRatio quality hasAttachedImage w h)

/-- The section structure required by the specification: exactly the
dimension rule and the edit task (with mode-dependent phrasing), then the
reference caveat iff a reference image is attached, then the quality
directive iff quality is not standard or the prompt contains a quality
keyword, joined by blank lines with empty sections omitted. -/
def PromptMatrixSpec (prompt aspectRatio quality : String) (hasAttachedImage : Bool)
    (w h : ℤ) : Prop :=
  promptLines prompt aspectRatio quality hasAttachedImage w h =
    [dimensionRule (aspectRatio != "original") w h,
     editTask (aspectRatio != "original") prompt] ++
    (if hasAttachedImage then [referenceRule] else []) ++
    (if quality ≠ "standard" ∨ hasQualityKeyword prompt = true then
       ["**QUALIDADE:** " ++ String.intercalate " "
          (([qualityInstruction quality, qualityInstructionFromPrompt prompt]).filter
            (fun s => s != ""))]
     else []) ∧
  enhancedPrompt prompt aspectRatio quality hasAttachedImage w h =
    String.intercalate "\n\n" (promptLines prompt aspectRatio quality hasAttachedImage w h)

/-- Claim C7: for every user prompt, aspect-ratio mode, reference-image
presence and quality level offered by the interface, the compiled prompt
contains exactly the specified sections in order, with the quality
directive present iff quality differs from standard or the user text
contains a quality keyword (case-insensitively), joined with blank lines
and with empty sections omitted. -/
theorem promptLines_matrix (prompt aspectRatio quality : String)
    (hasAttachedImage : Bool) (w h : ℤ)
    (hq : quality = "standard" ∨ quality = "high" ∨ quality = "4k") :
    PromptMatrixSpec prompt aspectRatio quality hasAttachedImage w h := by
  refine ⟨?_, rfl⟩
  rcases hq with hq | hq | hq <;> subst hq <;>
    rcases Bool.eq_false_or_eq_true (hasQualityKeyword prompt) with hk | hk <;>
      cases hasAttachedImage <;>
        simp [promptLines, qualityInstruction, qualityInstructionFromPrompt, hk] <;>
          decide

theorem promptLines_matrix_witness :
    (("4k" : String) = "standard" ∨ ("4k" : String) = "high" ∨ ("4k" : String) = "4k") ∧
    PromptMatrixSpec "adicione um gato" "16:9" "4k" true 100 50 :=
  ⟨Or.inr (Or.inr rfl),
   promptLines_matrix "adicione um gato" "16:9" "4k" true 100 50 (Or.inr (Or.inr rfl))⟩

/-- The user-facing message created for safety-blocked failures in
`editImageWithPrompt` (`src/unnamed/part_000` lines 129-131). -/
def safetyBlockedMessage : String :=
  "A solicitação foi bloqueada por configurações de segurança. Por favor, modifique seu comando ou imagem."

/-- The catch-clause error mapping of `editImageWithPrompt`
(`src/unnamed/part_000` lines 126-134): a failure whose message contains
"SAFETY" is replaced by the dedicated safety-blocked error; any other
failure is propagated to the caller unchanged. -/
def mapEditError (message : String) : String :=
  if jsIncludes message "SAFETY" then safetyBlockedMessage else message

/-- Claim C8: every failure whose detail message contains the substring
"SAFETY" anywhere is rejected with the dedicated safety-blocked error,
and every other failure is propagated to the caller unchanged. -/
theorem mapEditError_safety (message : String) :
    ((∃ pre post : List Char, message.toList = pre ++ "SAFETY".toList ++ post) →
      mapEditError message = safetyBlockedMessage) ∧
    (¬(∃ pre post : List Char, message.toList = pre ++ "SAFETY".toList ++ post) →
      mapEditError message = message) := by
  constructor
  · intro hcon
    unfold mapEditError
    rw [if_pos ((jsIncludes_iff message "SAFETY").mpr hcon)]
  · intro hcon
    unfold mapEditError
    rw [if_neg (fun hc => hcon ((jsIncludes_iff message "SAFETY").mp hc))]

theorem mapEditError_safety_witness :
    (∃ pre post : List Char,
      "erro SAFETY detectado".toList = pre ++ "SAFETY".toList ++ post) ∧
    mapEditError "erro SAFETY detectado" = safetyBlockedMessage ∧
    ¬(∃ pre post : List Char,
      "tempo esgotado".toList = pre ++ "SAFETY".toList ++ post) ∧
    mapEditError "tempo esgotado" = "tempo esgotado" := by
  have h1 : ∃ pre post : List Char,
      "erro SAFETY detectado".toList = pre ++ "SAFETY".toList ++ post :=
    ⟨"erro ".toList, " detectado".toList, by decide⟩
  have h2 : ¬(∃ pre post : List Char,
      "tempo esgotado".toList = pre ++ "SAFETY".toList ++ post) := by
    intro hcon
    have hc := (jsIncludes_iff "tempo esgotado" "SAFETY").mpr hcon
    have hfalse : jsIncludes "tempo esgotado" "SAFETY" = false := by decide
    rw [hfalse] at hc
    exact Bool.noConfusion hc
  exact ⟨h1, (mapEditError_safety "erro SAFETY detectado").1 h1, h2,
         (mapEditError_safety "tempo esgotado").2 h2⟩

/-- One entry of the edit history (`HistoryItem` in `src/App.tsx`
lines 17-22). -/
structure HistoryItem where
  url : String
  base64 : String
  mimeType : String
  width : ℤ
  height : ℤ
deriving DecidableEq, Repr

/-- A selected file as seen by the upload handlers: its byte size
together with the values available once the object URL, base64 payload
and decoded dimensions are known. -/
structure UploadedFile where
  name : String
  size : ℕ
  url : String
  base64 : String
  mimeType : String
  width : ℤ
  height : ℤ
deriving DecidableEq, Repr

/-- The React state of the `App` component (`src/App.tsx` lines 25-41). -/
structure AppState where
  history : List HistoryItem
  activeHistoryIndex : Option ℕ
  prompt : String
  isLoading : Bool
  error : Option String
  aspectRatio : String
  quality : String
  attachedImage : Option String
  attachedImageBase64 : Option String
  attachedImageMimeType : Option String
  attachedImageName : Option String
  attachedImageDimensions : Option (ℤ × ℤ)
  crop : Option Rect
  isCropping : Bool
deriving DecidableEq, Repr

/-- `currentImage` (`src/App.tsx` lines 54-57). -/
def currentImage (s : AppState) : Option HistoryItem :=
  match s.activeHistoryIndex with
  | none => none
  | some i => s.history.get? i

/-- `removeAttachedImage` (`src/App.tsx` lines 188-200). -/
def removeAttachedImage (s : AppState) : AppState :=
  { s with attachedImage := none, attachedImageBase64 := none,
           attachedImageMimeType := none, attachedImageName := none,
           attachedImageDimensions := none,
           aspectRatio := if s.aspectRatio = "reference" then "original"
                          else s.aspectRatio }

/-- `resetState` (`src/App.tsx` lines 68-81). -/
def resetState (s : AppState) : AppState :=
  removeAttachedImage
    { s with history := [], activeHistoryIndex := none, error := none,
             crop := none, isCropping := false, prompt := "",
             aspectRatio := "original", quality := "standard" }

/-- `handleFileChange` (`src/App.tsx` lines 83-108): an oversized file
only sets the error message; otherwise the session is reset and the
uploaded image becomes the single history entry with active index 0. -/
def handleFileChange (s : AppState) (file : Option UploadedFile) : AppState :=
  match file with
  | none => s
  | some f =>
    if f.size > 4 * 1024 * 1024 then
      { s with error := some "O tamanho do arquivo não pode exceder 4MB." }
    else
      let s1 := resetState s
      let newHistoryItem : HistoryItem :=
        { url := f.url, base64 := f.base64, mimeType := f.mimeType,
          width := f.width, height := f.height }
      { s1 with history := [newHistoryItem], activeHistoryIndex := some 0,
                error := none }

/-- `handleAttachedFileChange` (`src/App.tsx` lines 165-186). -/
def handleAttachedFileChange (s : AppState) (file : Option UploadedFile) :
    AppState :=
  match file with
  | none => s
  | some f =>
    if f.size > 4 * 1024 * 1024 then
      { s with error := some "O tamanho do arquivo anexado não pode exceder 4MB." }
    else
      { s with attachedImageName := some f.name, attachedImage := some f.url,
               attachedImageDimensions := some (f.width, f.height),
               attachedImageBase64 := some f.base64,
               attachedImageMimeType := some f.mimeType }

/-- The history entry built from a successful edit result
(`src/App.tsx` lines 280-288). -/
def resultItem (resultBase64 : String) (w h : ℤ) : HistoryItem :=
  { url := "data:image/png;base64," ++ resultBase64, base64 := resultBase64,
    mimeType := "image/png", width := w, height := h }

/-- `handleGenerateClick` (`src/App.tsx` lines 202-302) as a state
transition parameterised by the outcome of the asynchronous edit attempt:
a validation failure only sets the error message; a failed attempt (any
rejection surfacing in the catch clause) only sets the error message and
clears the loading flag; a successful attempt truncates the history
after the active index and appends the new entry as the active one. -/
def handleGenerateClick (s : AppState)
    (outcome : Except String (String × ℤ × ℤ)) : AppState :=
  if s.prompt = "" ∨ currentImage s = none then
    { s with error := some "Por favor, carregue uma imagem e insira um comando." }
  else
    match outcome with
    | Except.error msg => { s with error := some msg, isLoading := false }
    | Except.ok (resultBase64, w, h) =>
      match s.activeHistoryIndex with
      | none => s
      | some i =>
        let newHistory := s.history.take (i + 1)
        { s with history := newHistory ++ [resultItem resultBase64 w h],
                 activeHistoryIndex := some newHistory.length,
                 error := none, isLoading := false }

/-- Claim C1: generating a new edit from the active entry truncates all
entries after the active index, appends the new result, and makes it the
active entry; when the active index is in range the new active index is
the old one plus one (history [A, B, C] with active index 1 becomes
[A, B, D] with active index 2, discarding C). -/
theorem handleGenerateClick_branches (s : AppState) (resultBase64 : String)
    (w h : ℤ) (i : ℕ) (hidx : s.activeHistoryIndex = some i)
    (hp : s.prompt ≠ "") (hcur : currentImage s ≠ none) :
    (handleGenerateClick s (Except.ok (resultBase64, w, h))).history =
      s.history.take (i + 1) ++ [resultItem resultBase64 w h] ∧
    (handleGenerateClick s (Except.ok (resultBase64, w, h))).activeHistoryIndex =
      some (s.history.take (i + 1)).length ∧
    (handleGenerateClick s (Except.ok (resultBase64, w, h))).history[
        (s.history.take (i + 1)).length]? = some (resultItem resultBase64 w h) ∧
    (i < s.history.length → (s.history.take (i + 1)).length = i + 1) := by
  unfold handleGenerateClick
  rw [if_neg (not_or.mpr ⟨hp, hcur⟩), hidx]
  refine ⟨rfl, rfl, ?_, ?_⟩
  · exact List.getElem?_concat_length _ _
  · intro hlen
    rw [List.length_take]
    omega

/-- A small concrete application state used to evaluate the state
transitions on explicit inputs. -/
def sampleState : AppState :=
  { history := [⟨"u1", "b1", "image/png", 10, 10⟩,
                ⟨"u2", "b2", "image/png", 20, 20⟩,
                ⟨"u3", "b3", "image/png", 30, 30⟩],
    activeHistoryIndex := some 1,
    prompt := "p", isLoading := false, error := none,
    aspectRatio := "original", quality := "standard",
    attachedImage := none, attachedImageBase64 := none,
    attachedImageMimeType := none, attachedImageName := none,
    attachedImageDimensions := none, crop := none, isCropping := false }

theorem handleGenerateClick_branches_witness :
    sampleState.activeHistoryIndex = some 1 ∧
    sampleState.prompt ≠ "" ∧ currentImage sampleState ≠ none ∧
    ((handleGenerateClick sampleState (Except.ok ("d", 7, 7))).history =
       sampleState.history.take (1 + 1) ++ [resultItem "d" 7 7] ∧
     (handleGenerateClick sampleState (Except.ok ("d", 7, 7))).activeHistoryIndex =
       some (sampleState.history.take (1 + 1)).length ∧
     (handleGenerateClick sampleState (Except.ok ("d", 7, 7))).history[
         (sampleState.history.take (1 + 1)).length]? = some (resultItem "d" 7 7) ∧
     (1 < sampleState.history.length →
       (sampleState.history.take (1 + 1)).length = 1 + 1)) :=
  ⟨rfl, by decide, by decide,
   handleGenerateClick_branches sampleState "d" 7 7 1 rfl (by decide) (by decide)⟩

/-- Claim C9: every failing edit attempt — a validation failure (missing
prompt or image) or any failure outcome of the asynchronous attempt —
leaves the history list and the active index exactly as they were; no
partial entry is appended. -/
theorem handleGenerateClick_failure_preserves_history (s : AppState)
    (outcome : Except String (String × ℤ × ℤ))
    (hfail : (∃ msg, outcome = Except.error msg) ∨
             s.prompt = "" ∨ currentImage s = none) :
    (handleGenerateClick s outcome).history = s.history ∧
    (handleGenerateClick s outcome).activeHistoryIndex = s.activeHistoryIndex := by
  unfold handleGenerateClick
  by_cases hval : s.prompt = "" ∨ currentImage s = none
  · rw [if_pos hval]
    exact ⟨rfl, rfl⟩
  · rw [if_neg hval]
    rcases hfail with ⟨msg, rfl⟩ | hval2
    · exact ⟨rfl, rfl⟩
    · exact absurd hval2 hval

theorem handleGenerateClick_failure_witness :
    ((∃ msg, (Except.error "falha" : Except String (String × ℤ × ℤ)) =
        Except.error msg) ∨
      sampleState.prompt = "" ∨ currentImage sampleState = none) ∧
    (handleGenerateClick sampleState (Except.error "falha")).history =
      sampleState.history ∧
    (handleGenerateClick sampleState (Except.error "falha")).activeHistoryIndex =
      sampleState.activeHistoryIndex :=
  ⟨Or.inl ⟨"falha", rfl⟩,
   (handleGenerateClick_failure_preserves_history sampleState (Except.error "falha")
      (Or.inl ⟨"falha", rfl⟩)).1,
   (handleGenerateClick_failure_preserves_history sampleState (Except.error "falha")
      (Or.inl ⟨"falha", rfl⟩)).2⟩

/-- Claim C10: when the selected primary or reference file exceeds the
4 MiB limit, the handler only sets the error message and returns: the
whole remaining state — history, active index, prompt, aspect ratio,
quality, crop rectangle and attached-image state — is unchanged, and in
particular the oversized primary upload performs no session reset. -/
theorem oversized_file_only_sets_error (s : AppState) (f : UploadedFile)
    (hsize : f.size > 4 * 1024 * 1024) :
    handleFileChange s (some f) =
      { s with error := some "O tamanho do arquivo não pode exceder 4MB." } ∧
    handleAttachedFileChange s (some f) =
      { s with error := some "O tamanho do arquivo anexado não pode exceder 4MB." } := by
  simp only [handleFileChange, handleAttachedFileChange]
  rw [if_pos hsize, if_pos hsize]
  exact ⟨rfl, rfl⟩

theorem oversized_file_only_sets_error_witness :
    (UploadedFile.size ⟨"big.png", 4194305, "u", "b", "image/png", 9, 9⟩ >
      4 * 1024 * 1024) ∧
    handleFileChange sampleState (some ⟨"big.png", 4194305, "u", "b", "image/png", 9, 9⟩) =
      { sampleState with
          error := some "O tamanho do arquivo não pode exceder 4MB." } ∧
    handleAttachedFileChange sampleState
        (some ⟨"big.png", 4194305, "u", "b", "image/png", 9, 9⟩) =
      { sampleState with
          error := some "O tamanho do arquivo anexado não pode exceder 4MB." } :=
  ⟨by decide,
   (oversized_file_only_sets_error sampleState
      ⟨"big.png", 4194305, "u", "b", "image/png", 9, 9⟩ (by decide)).1,
   (oversized_file_only_sets_error sampleState
      ⟨"big.png", 4194305, "u", "b", "image/png", 9, 9⟩ (by decide)).2⟩

/-- Claim C6 counterexample: with container 100 × 1000, ratio 1 and the
start rectangle at x = -10 (negative origin) with size 50 × 50, a resize
by dx = 100 returns the rectangle (0, 0, 110, 110): its width 110 exceeds
the container width 100, so for arbitrary start rectangles the resize
operation can return a rectangle whose far edge exceeds the bounds. -/
theorem dragResize_escapes_container :
    handleCropMouseMove ⟨false, true, 0, 0, some ⟨-10, 0, 50, 50⟩⟩ 100 0 (some 1)
        100 1000 none = some ⟨0, 0, 110, 110⟩ ∧
    Rect.x (⟨0, 0, 110, 110⟩ : Rect) + Rect.width (⟨0, 0, 110, 110⟩ : Rect) > 100 := by
  have h := handleCropMouseMove_resize ⟨-10, 0, 50, 50⟩ 0 0 100 0 100 1000 1 none
    (by norm_num)
  refine ⟨?_, by norm_num⟩
  rw [h]
  norm_num [dragResizeSize, clampCrop]
